import Mathlib

/-!
Verification development for the BeTon music tagger.

The definitions below are shallow embeddings of the C++ sources:
  * `src/MusicBrainzClient.cpp` — search, release lookup, cover fetch,
    rate limiting, retry/cancellation;
  * `src/TagSync.cpp` — tag reading (field-resolution order) and tag
    writing (ID3v2 path);
  * `src/MainWindow.cpp` (MSG_MB_APPLY_ALBUM handler) — album-mode
    reconciliation of local files against a remote release.

Machine integers in the sources are non-negative and far from overflow in
every code path modelled here, so they are embedded as `Nat` (with `Int`
used where the source computes a signed difference).
-/

namespace BeTon

/-! ## MusicBrainz data model (`src/MusicBrainzClient.cpp`) -/

/-- Embeds the C++ `MBHit` structure: one search hit, i.e. one
(recording, release) pair.  Default field values model the
default-constructed `BString`s / ints of the C++ struct. -/
structure MBHit where
  recordingId : String := ""
  title : String := ""
  artist : String := ""
  releaseId : String := ""
  releaseTitle : String := ""
  country : String := ""
  year : Nat := 0
  trackCount : Nat := 0
  deriving Repr, DecidableEq

/-- One release as delivered inside a recording's release list by the
remote service.  `dateYear` is `atoi` of the release date string (`none`
when the date string is empty); `mediumTrackCounts` lists, per medium,
the number of tracks on that medium. -/
structure RelIn where
  id : String := ""
  title : String := ""
  country : String := ""
  dateYear : Option Nat := none
  mediumTrackCounts : List Nat := []
  deriving Repr, DecidableEq

/-- One recording as delivered by the remote search.  `artistCredit`
models the (nullable) name-credit list, each credit holding a (nullable)
artist name; `releases` models the (nullable) release list. -/
structure RecIn where
  id : String := ""
  title : String := ""
  artistCredit : Option (List (Option String)) := none
  releases : Option (List RelIn) := none
  deriving Repr, DecidableEq

/-- Embeds the artist-string construction in `SearchRecording`: walks the
name-credit list with index `k`, appending `", "` before every credit
with index `k > 0` whose artist pointer is non-null. -/
def joinCredits : List (Option String) → Nat → String → String
  | [], _, acc => acc
  | some a :: rest, k, acc =>
      joinCredits rest (k + 1) (acc ++ (if k > 0 then ", " else "") ++ a)
  | none :: rest, k, acc => joinCredits rest (k + 1) acc

/-- The hit carrying only the recording-level fields, before the release
loop runs (release fields keep their defaults). -/
def baseHit (rec : RecIn) : MBHit :=
  { recordingId := rec.id
    title := rec.title
    artist :=
      match rec.artistCredit with
      | some ncl => joinCredits ncl 0 ""
      | none => "" }

/-- The hit produced for one (recording, release) pair: the base hit with
the release fields filled in.  `trackCount` sums the per-medium track
counts, `year` is 0 when the date string was empty. -/
def releaseHit (rec : RecIn) (rel : RelIn) : MBHit :=
  { baseHit rec with
    releaseId := rel.id
    releaseTitle := rel.title
    country := rel.country
    year := rel.dateYear.getD 0
    trackCount := rel.mediumTrackCounts.sum }

/-- Embeds the flattening loop of `SearchRecording`: a non-null,
non-empty release list yields one hit per release; a null or empty
release list yields the single base hit. -/
def flattenRecording (rec : RecIn) : List MBHit :=
  match rec.releases with
  | some rl =>
      if rl.length > 0 then rl.map (releaseHit rec)
      else [baseHit rec]
  | none => [baseHit rec]

/-- Embeds the result-construction phase of `SearchRecording` over the
whole recording list of a successful query. -/
def searchResults (recs : List RecIn) : List MBHit :=
  recs.flatMap flattenRecording

/-! ### Rate limiting and the retry loop -/

/-- Embeds `_RespectRateLimit` followed by the caller's
`fLastCall = system_time()`: given the previous recorded call time and
the current time (microseconds), returns the time at which the call
proceeds, which is also the newly recorded last-call time.  The source
sleeps `1100000 - diff` microseconds when `diff < 1100000`. -/
def respectRateLimit (lastCall now : Nat) : Nat :=
  if now - lastCall < 1100000 then now + (1100000 - (now - lastCall)) else now

/-- The sequence of recorded call times produced by a sequence of calls,
where the i-th call becomes ready `d_i` microseconds after the previous
recorded call time. -/
def rateTrace (lastCall : Nat) : List Nat → List Nat
  | [] => []
  | d :: ds =>
      let s := respectRateLimit lastCall (lastCall + d)
      s :: rateTrace s ds

/-- Embeds the ten 100 ms polling sleeps between retry attempts in
`SearchRecording`: each poll checks the cancellation predicate (sampled
at successive check indices).  Returns `none` when some poll saw
cancellation, otherwise the next check index. -/
def sleepChecks (cancel : Nat → Bool) : Nat → Nat → Option Nat
  | 0, c => some c
  | n + 1, c => if cancel c then none else sleepChecks cancel n (c + 1)

/-- The wall-clock wait the retry loop inserts between two attempts:
ten `snooze(100000)` polling sleeps, 1.0 s in total. -/
def retrySleepMicros : Nat := 10 * 100000

/-- Start times of the consecutive attempts of one `SearchRecording`
call when attempts keep failing: the attempt that starts at `t` and
fails after `d` microseconds is followed by the polling sleep, then the
next attempt starts. -/
def attemptStarts (t : Nat) : List Nat → List Nat
  | [] => []
  | d :: ds => t :: attemptStarts (t + d + retrySleepMicros) ds

/-- Outcome of the `SearchRecording` retry loop: the metadata obtained
(`none` models the default-constructed empty `CMetadata`), whether the
loop exited because a cancellation check fired, and how many query
attempts were issued. -/
structure RetryOut where
  meta : Option (List RecIn)
  cancelled : Bool
  attemptsMade : Nat
  deriving Repr, DecidableEq

/-- Embeds the `while (retries > 0)` retry loop of `SearchRecording`.
`attempt i` is the outcome of the (i+1)-th network attempt: `.ok m` a
completed query (with `m = none` for an empty `CMetadata`, e.g. after an
internal timeout), `.error` a thrown exception.  `cancel` is the
cancellation predicate sampled at successive check indices starting at
`c`. -/
def retryLoop (attempt : Nat → Except String (Option (List RecIn)))
    (cancel : Nat → Bool) : Nat → Nat → Nat → RetryOut
  | 0, a, _ => ⟨none, false, a⟩
  | r + 1, a, c =>
      if cancel c then ⟨none, true, a⟩
      else
        match attempt a with
        | .ok m => ⟨m, false, a + 1⟩
        | .error _ =>
            if r = 0 then ⟨none, false, a + 1⟩
            else
              match sleepChecks cancel 10 (c + 1) with
              | none => ⟨none, true, a + 1⟩
              | some c' => retryLoop attempt cancel r (a + 1) c'

/-- Result of one `SearchRecording` call: the hit list returned, the
`fLastCall` value after the call, and the number of network attempts. -/
structure SearchOut where
  hits : List MBHit
  newLastCall : Nat
  attemptsMade : Nat
  deriving Repr, DecidableEq

/-- Embeds `SearchRecording`: initial cancellation check, rate-limit
wait, unconditional recording of the last-call time, retry loop, then
flattening of the recording list (an empty `CMetadata` has no recording
list, so the hit list stays empty). -/
def searchRecording (lastCall now : Nat)
    (attempt : Nat → Except String (Option (List RecIn)))
    (cancel : Nat → Bool) : SearchOut :=
  if cancel 0 then ⟨[], lastCall, 0⟩
  else
    let t := respectRateLimit lastCall now
    let r := retryLoop attempt cancel 3 0 1
    ⟨(match r.meta with
      | some recs => searchResults recs
      | none => []), t, r.attemptsMade⟩

/-! ### Release details (`GetReleaseDetails`) -/

/-- Embeds the C++ `MBTrack` structure. -/
structure MBTrack where
  disc : Nat := 0
  track : Nat := 0
  length : Nat := 0
  title : String := ""
  recordingId : String := ""
  deriving Repr, DecidableEq

/-- Embeds the C++ `MBRelease` structure. -/
structure MBRelease where
  releaseId : String := ""
  album : String := ""
  albumArtist : String := ""
  releaseGroupId : String := ""
  year : Nat := 0
  tracks : List MBTrack := []
  deriving Repr, DecidableEq

/-- One track inside a medium of a release-details response. -/
structure TrackIn where
  position : Nat := 0
  lengthMs : Nat := 0
  recording : Option (String × String) := none
  deriving Repr, DecidableEq

/-- One medium of a release-details response. -/
structure MediumIn where
  position : Nat := 0
  trackList : List TrackIn := []
  deriving Repr, DecidableEq

/-- The (nullable) release payload of a release-details response.
`firstCreditArtist` models the first name credit's artist name,
`releaseGroupId` the (nullable) release group, `dateYear` the `atoi` of
a non-empty date string. -/
structure RelDetailsIn where
  title : String := ""
  firstCreditArtist : Option String := none
  releaseGroupId : Option String := none
  dateYear : Option Nat := none
  mediums : List MediumIn := []
  deriving Repr, DecidableEq

/-- The track record built for one track of one medium. -/
def detailTrack (discNum : Nat) (t : TrackIn) : MBTrack :=
  { disc := discNum
    track := t.position
    length := t.lengthMs / 1000
    title := (t.recording.map Prod.fst).getD ""
    recordingId := (t.recording.map Prod.snd).getD "" }

/-- Embeds `GetReleaseDetails`.  The whole body runs inside
`try { ... } catch (...) {}`, so a thrown exception (`query = .error`)
leaves `out` at its pre-query state: the requested release id and an
empty track list.  A completed query with a null release pointer
(`query = .ok none`) does the same. -/
def getReleaseDetails (releaseId : String) (cancel : Bool)
    (query : Except String (Option RelDetailsIn)) : MBRelease :=
  let out : MBRelease := { releaseId := releaseId }
  if cancel then out
  else
    match query with
    | .error _ => out
    | .ok none => out
    | .ok (some rel) =>
        { out with
          album := rel.title
          albumArtist := rel.firstCreditArtist.getD ""
          releaseGroupId := rel.releaseGroupId.getD ""
          year := rel.dateYear.getD 0
          tracks := rel.mediums.flatMap fun med =>
            med.trackList.map (detailTrack med.position) }

/-! ### Cover fetch (`FetchCover`) -/

/-- The Cover Art Archive URL built by `FetchCover` for an entity kind,
entity id and optional size suffix. -/
def coverUrl (entity entityId : String) (size : Option Nat) : String :=
  match size with
  | some s =>
      "https://coverartarchive.org/" ++ entity ++ "/" ++ entityId ++
        "/front-" ++ toString s
  | none =>
      "https://coverartarchive.org/" ++ entity ++ "/" ++ entityId ++ "/front"

/-- Embeds `FetchCover`, instrumented with the list of URLs requested (in
order).  `status` maps each URL to the HTTP status `_FetchUrl` returns
for it.  On a 404 of a sized request the source recurses once with
`sizeHint = 0`. -/
def fetchCover (status : String → Nat) (entityId : String) (sizeHint : Nat)
    (isReleaseGroup : Bool) (cancel : Bool) : List String × Bool :=
  if cancel then ([], false)
  else
    let entity := if isReleaseGroup then "release-group" else "release"
    let url :=
      if sizeHint > 0 && !isReleaseGroup then
        coverUrl entity entityId (some sizeHint)
      else coverUrl entity entityId none
    let st := status url
    if st = 200 then ([url], true)
    else
      if sizeHint > 0 && st = 404 && !isReleaseGroup then
        let r := fetchCover status entityId 0 isReleaseGroup cancel
        (url :: r.1, r.2)
      else ([url], false)
  termination_by sizeHint
  decreasing_by simp_all

/-! ## Album-mode reconciliation
(`src/MainWindow.cpp`, `MSG_MB_APPLY_ALBUM` handler) -/

/-- The per-file inputs the reconciliation loop reads for one local
file: the embedded track-number tag (`td.track` from `ReadTags`), the
track number extracted from the filename
(`MatchingUtils::ExtractTrackNumber`, 0 when none), and the audio length
in seconds. -/
structure FileInfo where
  tagTrack : Nat := 0
  fnTrack : Nat := 0
  lengthSec : Nat := 0
  deriving Repr, DecidableEq

/-- The 15-second duration-tolerance test
`abs((int)rel.tracks[k].length - (int)td.lengthSec) < 15`. -/
def durOk (t : MBTrack) (f : FileInfo) : Bool :=
  ((t.length : Int) - (f.lengthSec : Int)).natAbs < 15

/-- Embeds the inner `for (k ...)` scan with its `break`: the index of
the first remote track that is not yet used and whose track number
equals `num`.  The scan breaks at that index whether or not the
subsequent duration test passes. -/
def firstMatch (tracks : List MBTrack) (used : List Nat) (num : Nat) :
    Option Nat :=
  (List.range tracks.length).find? fun k =>
    !used.contains k && (tracks.getD k {}).track = num

/-- Embeds the embedded-tag-number branch of pass 1 for one file: when
the file carries a track-number tag, the first unused remote track with
that number is duration-tested; a failed test sets the batch
duration-mismatch flag (the second component). -/
def embBranch (tracks : List MBTrack) (used : List Nat) (f : FileInfo) :
    Option Nat × Bool :=
  if f.tagTrack > 0 then
    match firstMatch tracks used f.tagTrack with
    | some k =>
        if durOk (tracks.getD k {}) f then (some k, false) else (none, true)
    | none => (none, false)
  else (none, false)

/-- Embeds the filename-derived-number branch of pass 1 for one file
(run only when the embedded branch assigned nothing): same scan and
duration test, but a failed test sets no flag. -/
def fnBranch (tracks : List MBTrack) (used : List Nat) (f : FileInfo) :
    Option Nat :=
  if f.fnTrack > 0 then
    match firstMatch tracks used f.fnTrack with
    | some k => if durOk (tracks.getD k {}) f then some k else none
    | none => none
  else none

/-- Embeds the pass-1 body for one file: the embedded-tag branch, then —
only when it assigned nothing — the filename branch, whose outcome
leaves the mismatch flag untouched.  Returns the assigned track index,
if any, and whether this file set the duration-mismatch flag. -/
def matchFile (tracks : List MBTrack) (used : List Nat) (f : FileInfo) :
    Option Nat × Bool :=
  match embBranch tracks used f with
  | (some k, _) => (some k, false)
  | (none, mm) => (fnBranch tracks used f, mm)

/-- The track indices actually assigned in a file-to-track map (the
non-`-1` entries, in file order). -/
def somes (m : List (Option Nat)) : List Nat :=
  m.filterMap id

/-- The number of still-unassigned positions of a file-to-track map. -/
def countNone (m : List (Option Nat)) : Nat :=
  (m.filter Option.isNone).length

/-- State after pass 1: the partial file-to-track map (`-1` embedded as
`none`), the used-track set (as the list of used indices), the pass-1
assignment count `filesMatched`, and the batch `durationMismatch`
flag. -/
structure Pass1Out where
  map : List (Option Nat)
  used : List Nat
  matched : Nat
  mismatch : Bool
  deriving Repr, DecidableEq

/-- Embeds pass 1 (the strong-signal pass) over the file list, threading
the used-track set. -/
def pass1 (tracks : List MBTrack) : List FileInfo → List Nat → Pass1Out
  | [], used => ⟨[], used, 0, false⟩
  | f :: fs, used =>
      match matchFile tracks used f with
      | (some k, mmf) =>
          let r := pass1 tracks fs (k :: used)
          ⟨some k :: r.map, r.used, r.matched + 1, mmf || r.mismatch⟩
      | (none, mmf) =>
          let r := pass1 tracks fs used
          ⟨none :: r.map, r.used, r.matched, mmf || r.mismatch⟩

/-- Embeds the `while (nextTrackIdx < M && trackUsed[nextTrackIdx])`
walk of the fallback pass: the first index `≥ next` that is below `M`
and unused, or the first index `≥ M` reached.  The first argument is
explicit recursion fuel (the callers pass `M - next`, which bounds the
number of loop iterations, so the fuel never runs out on the loop's own
exit condition). -/
def advance (M : Nat) (used : List Nat) : Nat → Nat → Nat
  | 0, next => next
  | fuel + 1, next =>
      if next < M ∧ used.contains next then advance M used fuel (next + 1)
      else next

/-- Embeds pass 2 (the fallback fill): every still-unassigned file takes
the next unused track index, walking the remote track list in order;
`nextTrackIdx` persists across files. -/
def fallbackFill (M : Nat) :
    List (Option Nat) → List Nat → Nat → List (Option Nat) × List Nat
  | [], used, _ => ([], used)
  | some k :: m, used, next =>
      let r := fallbackFill M m used next
      (some k :: r.1, r.2)
  | none :: m, used, next =>
      let n := advance M used (M - next) next
      if n < M then
        let r := fallbackFill M m (n :: used) n
        (some n :: r.1, r.2)
      else
        let r := fallbackFill M m used n
        (none :: r.1, r.2)

/-- The reconciliation outcome: final file-to-track map, pass-1
assignment count, batch duration-mismatch flag. -/
structure ReconOut where
  map : List (Option Nat)
  matched : Nat
  mismatch : Bool
  deriving Repr, DecidableEq

/-- Embeds the whole album-mode matching algorithm: pass 1 starting from
an all-false used set, then the fallback fill starting at track index
0. -/
def reconcile (tracks : List MBTrack) (files : List FileInfo) : ReconOut :=
  let p := pass1 tracks files []
  let f := fallbackFill tracks.length p.map p.used 0
  ⟨f.1, p.matched, p.mismatch⟩

/-- `allMapped`: no position of the final map is still `-1`. -/
def allMapped (r : ReconOut) : Bool :=
  r.map.all Option.isSome

/-- Embeds the confidence verdict
`allMapped && !durationMismatch && (filesMatched >= (int)files.size() / 2)`
(integer division). -/
def confident (tracks : List MBTrack) (files : List FileInfo) : Bool :=
  let r := reconcile tracks files
  allMapped r && !r.mismatch && files.length / 2 ≤ r.matched

/-- The spec's confidence predicate, taken at its words: every file
received some assignment, no duration mismatch was recorded in pass 1,
and the count of pass-1 assignments is at least half the file count
(`matched ≥ files.length / 2` over the rationals, i.e.
`2 * matched ≥ files.length`). -/
def confidentSpec (tracks : List MBTrack) (files : List FileInfo) : Prop :=
  let r := reconcile tracks files
  allMapped r = true ∧ r.mismatch = false ∧ files.length ≤ 2 * r.matched

instance (tracks : List MBTrack) (files : List FileInfo) :
    Decidable (confidentSpec tracks files) := by
  unfold confidentSpec; infer_instance

/-- Spec-side description of what `firstMatch` should return: `k` is an
in-range, unused index whose track number is `num`, and no smaller index
is both unused and carries that number. -/
def IsFirstUnusedMatch (tracks : List MBTrack) (used : List Nat)
    (num k : Nat) : Prop :=
  k < tracks.length ∧ k ∉ used ∧ (tracks.getD k {}).track = num ∧
    ∀ j < k, ¬(j ∉ used ∧ (tracks.getD j {}).track = num)

/-! ## Tag synchronisation (`src/TagSync.cpp`) -/

/-- Embeds the C++ `TagData` fields that the tag read/write paths
modelled here touch. -/
structure TagRecord where
  title : String := ""
  artist : String := ""
  album : String := ""
  comment : String := ""
  genre : String := ""
  year : Nat := 0
  track : Nat := 0
  trackTotal : Nat := 0
  disc : Nat := 0
  discTotal : Nat := 0
  albumArtist : String := ""
  composer : String := ""
  mbAlbumID : String := ""
  mbArtistID : String := ""
  mbTrackID : String := ""
  deriving Repr, DecidableEq

/-- Embeds `_toUInt`: `strtol` base 10 (leading whitespace, optional
sign, leading digits), returning the value when positive and 0
otherwise. -/
def digitsVal : List Char → Nat → Nat
  | [], acc => acc
  | c :: cs, acc =>
      if c.isDigit then digitsVal cs (acc * 10 + (c.toNat - 48)) else acc

def toUInt (s : String) : Nat :=
  match s.toList.dropWhile Char.isWhitespace with
  | '-' :: _ => 0
  | '+' :: cs => digitsVal cs 0
  | cs => digitsVal cs 0

/-- Embeds `_parsePair`: split at the first `/`; without a slash the
whole string is the first component and the second is 0. -/
def parsePair (s : String) : Nat × Nat :=
  let cs := s.toList
  match cs.dropWhile (· ≠ '/') with
  | [] => (toUInt s, 0)
  | _ :: b =>
      (toUInt (String.mk (cs.takeWhile (· ≠ '/'))), toUInt (String.mk b))

/-- Embeds `_getTL`: the first key (in the given order) present in the
property map with a non-empty value list wins; its front value is
returned. -/
def getProp (pm : List (String × List String)) : List String → Option String
  | [] => none
  | k :: ks =>
      match pm.lookup k with
      | some (v :: _) => some v
      | _ => getProp pm ks

/-- The four numeric fields whose resolution order claim C6 is about. -/
structure NumTags where
  track : Nat := 0
  trackTotal : Nat := 0
  disc : Nat := 0
  discTotal : Nat := 0
  deriving Repr, DecidableEq

def pmKeysTrackTotal : List String := ["TRACKTOTAL", "TOTALTRACKS", "TOTAL TRACKS"]
def pmKeysTrackPair : List String := ["TRACKNUMBER", "TRCK", "trkn"]
def pmKeysDisc : List String := ["DISCNUMBER", "DISC NUMBER", "TPOS"]
def pmKeysDiscTotal : List String := ["DISCTOTAL", "TOTALDISCS", "TOTAL DISCS"]
def pmKeysDiscPair : List String := ["TPOS", "DISCNUMBER", "disk"]

/-- Embeds the `if (out.trackTotal == 0)` dedicated-total block of the
generic-property section of `ReadTags`. -/
def pmStepTrackTotal (pm : List (String × List String)) (st : NumTags) :
    NumTags :=
  if st.trackTotal = 0 then
    match getProp pm pmKeysTrackTotal with
    | some s => if s = "" then st else { st with trackTotal := toUInt s }
    | none => st
  else st

/-- Embeds the `trkPair` block of the generic-property section: the
track slot fills only when still 0, but a non-zero pair total is written
unconditionally. -/
def pmStepTrackPair (pm : List (String × List String)) (st : NumTags) :
    NumTags :=
  match getProp pm pmKeysTrackPair with
  | some s =>
      if s = "" then st
      else
        let p := parsePair s
        let st1 :=
          if p.1 ≠ 0 ∧ st.track = 0 then { st with track := p.1 } else st
        if p.2 ≠ 0 then { st1 with trackTotal := p.2 } else st1
  | none => st

/-- Embeds the `if (out.disc == 0)` block of the generic-property
section. -/
def pmStepDisc (pm : List (String × List String)) (st : NumTags) : NumTags :=
  if st.disc = 0 then
    { st with disc := toUInt ((getProp pm pmKeysDisc).getD "") }
  else st

/-- Embeds the `if (out.discTotal == 0)` dedicated-total block of the
generic-property section. -/
def pmStepDiscTotal (pm : List (String × List String)) (st : NumTags) :
    NumTags :=
  if st.discTotal = 0 then
    match getProp pm pmKeysDiscTotal with
    | some s => if s = "" then st else { st with discTotal := toUInt s }
    | none => st
  else st

/-- Embeds the `tpos` pair block of the generic-property section: the
disc slot fills only when still 0, but a non-zero pair total is written
unconditionally. -/
def pmStepDiscPair (pm : List (String × List String)) (st : NumTags) :
    NumTags :=
  match getProp pm pmKeysDiscPair with
  | some s =>
      if s = "" then st
      else
        let p := parsePair s
        let st1 :=
          if p.1 ≠ 0 ∧ st.disc = 0 then { st with disc := p.1 } else st
        if p.2 ≠ 0 then { st1 with discTotal := p.2 } else st1
  | none => st

/-- Embeds the generic-property section of `ReadTags` (the
`fr.file()->properties()` block) for the four numeric fields, block by
block in source order. -/
def resolvePm (pm : List (String × List String)) (st : NumTags) : NumTags :=
  pmStepDiscPair pm
    (pmStepDiscTotal pm (pmStepDisc pm (pmStepTrackPair pm (pmStepTrackTotal pm st))))

/-- Embeds the TRCK block of the ID3v2 secondary section of `ReadTags`:
the first TRCK frame's string parsed as a pair, each component filling
its field only when that field is still 0. -/
def id3StepTrck (trck : Option String) (st : NumTags) : NumTags :=
  if st.track = 0 ∨ st.trackTotal = 0 then
    match trck with
    | some s =>
        let p := parsePair s
        let st1 := if st.track = 0 then { st with track := p.1 } else st
        if st1.trackTotal = 0 then { st1 with trackTotal := p.2 } else st1
    | none => st
  else st

/-- Embeds the TPOS block of the ID3v2 secondary section. -/
def id3StepTpos (tpos : Option String) (st : NumTags) : NumTags :=
  if st.disc = 0 ∨ st.discTotal = 0 then
    match tpos with
    | some s =>
        let p := parsePair s
        let st1 := if st.disc = 0 then { st with disc := p.1 } else st
        if st1.discTotal = 0 then { st1 with discTotal := p.2 } else st1
    | none => st
  else st

/-- The ID3v2 secondary section of `ReadTags`. -/
def resolveID3 (trck tpos : Option String) (st : NumTags) : NumTags :=
  id3StepTpos tpos (id3StepTrck trck st)

/-- Embeds the `trkn` block of the MP4 secondary section of `ReadTags`:
each pair component fills its field only when the component is positive
and the field is still 0. -/
def mp4StepTrkn (trkn : Option (Nat × Nat)) (st : NumTags) : NumTags :=
  match trkn with
  | some p =>
      let st1 :=
        if p.1 > 0 ∧ st.track = 0 then { st with track := p.1 } else st
      if p.2 > 0 ∧ st1.trackTotal = 0 then { st1 with trackTotal := p.2 }
      else st1
  | none => st

/-- Embeds the `disk` block of the MP4 secondary section. -/
def mp4StepDisk (disk : Option (Nat × Nat)) (st : NumTags) : NumTags :=
  match disk with
  | some p =>
      let st1 := if p.1 > 0 ∧ st.disc = 0 then { st with disc := p.1 } else st
      if p.2 > 0 ∧ st1.discTotal = 0 then { st1 with discTotal := p.2 }
      else st1
  | none => st

/-- The MP4 secondary section of `ReadTags`. -/
def resolveMP4 (trkn disk : Option (Nat × Nat)) (st : NumTags) : NumTags :=
  mp4StepDisk disk (mp4StepTrkn trkn st)

/-- The slash-pair total that the generic layer's pair block reads for
the given key list (0 when the key is absent or its value empty). -/
def pairTot (pm : List (String × List String)) (keys : List String) : Nat :=
  match getProp pm keys with
  | some s => if s = "" then 0 else (parsePair s).2
  | none => 0

/-- The full numeric-field resolution of `ReadTags`: the generic tag
layer supplies `t->track()`, then the generic property map, then the
ID3v2 frames, then the MP4 items run in source order. -/
def readTagsNums (genericTrack : Nat) (pm : List (String × List String))
    (trck tpos : Option String) (trkn disk : Option (Nat × Nat)) : NumTags :=
  resolveMP4 trkn disk (resolveID3 trck tpos (resolvePm pm { track := genericTrack }))

/-! ### ID3v2 writing (`TagSync::WriteTagsToFile`, mp3 path) -/

/-- One ID3v2 user-text (TXXX) frame: a description and a value. -/
structure TXXXFrame where
  desc : String
  value : String
  deriving Repr, DecidableEq

/-- The ID3v2 tag state touched by the mp3 write path: the basic scalar
fields, the frame lists of the four text-frame IDs the code edits (one
entry per frame, holding its text), and the TXXX frame list. -/
structure ID3Tag where
  title : String := ""
  artist : String := ""
  album : String := ""
  comment : String := ""
  genre : String := ""
  year : Nat := 0
  track : Nat := 0
  tpe2 : List String := []
  tcom : List String := []
  trck : List String := []
  tpos : List String := []
  txxx : List TXXXFrame := []
  deriving Repr, DecidableEq

/-- Embeds `_pairStr`. -/
def pairStr (n tot : Nat) : String :=
  if n = 0 ∧ tot = 0 then ""
  else if tot = 0 then toString n
  else toString n ++ "/" ++ toString tot

/-- Embeds the per-ID text-frame blocks of the mp3 write path (TPE2,
TCOM, TRCK, TPOS): an empty value removes the *front* frame of that ID
(only the front — later frames of the same ID survive); a non-empty
value sets the front frame's text, creating one frame when the list is
empty. -/
def setTextFrame (frames : List String) (v : String) : List String :=
  if v = "" then frames.tail
  else
    match frames with
    | [] => [v]
    | _ :: rest => v :: rest

/-- Embeds `setTXXX`: all TXXX frames whose description matches
case-insensitively are removed, then, when the value is non-empty, one
fresh frame is appended. -/
def setTXXX (frames : List TXXXFrame) (d v : String) : List TXXXFrame :=
  let kept := frames.filter fun fr => fr.desc.toUpper ≠ d.toUpper
  if v = "" then kept else kept ++ [⟨d, v⟩]

/-- Embeds the whole mp3 branch of `WriteTagsToFile` as a transformation
of the ID3v2 tag state: `set_basic_tags`, the four text-frame blocks,
then the three MusicBrainz `setTXXX` calls in source order. -/
def writeID3 (td : TagRecord) (t : ID3Tag) : ID3Tag :=
  let t := { t with
    title := td.title, artist := td.artist, album := td.album,
    comment := td.comment, genre := td.genre, year := td.year,
    track := td.track }
  let t := { t with tpe2 := setTextFrame t.tpe2 td.albumArtist }
  let t := { t with tcom := setTextFrame t.tcom td.composer }
  let t := { t with trck := setTextFrame t.trck (pairStr td.track td.trackTotal) }
  let t := { t with tpos := setTextFrame t.tpos (pairStr td.disc td.discTotal) }
  let t := { t with txxx := setTXXX t.txxx "MusicBrainz Album Id" td.mbAlbumID }
  let t := { t with txxx := setTXXX t.txxx "MusicBrainz Artist Id" td.mbArtistID }
  { t with txxx := setTXXX t.txxx "MusicBrainz Track Id" td.mbTrackID }

/-- How `ReadTags` reads the album artist back from an mp3: the generic
property map exposes the TPE2 frames under `ALBUMARTIST`, whose front
value is the first TPE2 frame's text (empty when there is none). -/
def readAlbumArtistID3 (t : ID3Tag) : String :=
  t.tpe2.headD ""

/-- The three-release list used by the flattening witness. -/
def rls3 : List RelIn := [{ id := "a" }, { id := "b" }, { id := "c" }]

/-- The property map of the C6 counterexample: a dedicated TRACKTOTAL
field and a slash-pair TRACKNUMBER field that disagree about the
total. -/
def pmC6 : List (String × List String) :=
  [("TRACKTOTAL", ["12"]), ("TRACKNUMBER", ["3/10"])]

/-! ## Helper lemmas -/

lemma respectRateLimit_ge (lastCall now : Nat) (h : lastCall ≤ now) :
    lastCall + 1100000 ≤ respectRateLimit lastCall now := by
  unfold respectRateLimit
  split <;> omega

lemma rateTrace_chain (t0 : Nat) (ds : List Nat) :
    List.Chain (fun a b => a + 1100000 ≤ b) t0 (rateTrace t0 ds) := by
  induction ds generalizing t0 with
  | nil => simp [rateTrace]
  | cons d ds ih =>
      rw [rateTrace]
      exact List.Chain.cons (respectRateLimit_ge _ _ (Nat.le_add_right _ _)) (ih _)

lemma attemptStarts_chain :
    ∀ (ds : List Nat) (t : Nat),
      List.Chain' (fun a b => a + retrySleepMicros ≤ b) (attemptStarts t ds) := by
  intro ds
  induction ds with
  | nil => intro t; simp [attemptStarts]
  | cons d ds ih =>
      intro t
      rw [attemptStarts, List.chain'_cons']
      refine ⟨?_, ih _⟩
      intro y hy
      cases ds with
      | nil => simp [attemptStarts] at hy
      | cons d2 ds2 =>
          rw [attemptStarts] at hy
          simp only [List.head?_cons, Option.mem_def, Option.some_inj] at hy
          omega

lemma retryLoop_attempts_le (attempt : Nat → Except String (Option (List RecIn)))
    (cancel : Nat → Bool) :
    ∀ r a c, (retryLoop attempt cancel r a c).attemptsMade ≤ a + r := by
  intro r
  induction r with
  | zero => intro a c; simp [retryLoop]
  | succ n ih =>
      intro a c
      rw [retryLoop]
      split
      · simp
      · split
        · simp
        · split
          · simp
          · split
            · simp
            · calc (retryLoop attempt cancel n (a + 1) _).attemptsMade
                  ≤ a + 1 + n := ih _ _
                _ = a + (n + 1) := by omega

lemma retryLoop_cancelled_meta
    (attempt : Nat → Except String (Option (List RecIn))) (cancel : Nat → Bool) :
    ∀ r a c, (retryLoop attempt cancel r a c).cancelled = true →
      (retryLoop attempt cancel r a c).meta = none := by
  intro r
  induction r with
  | zero => intro a c _; simp [retryLoop]
  | succ n ih =>
      intro a c
      rw [retryLoop]
      split
      · intro; rfl
      · split
        · simp
        · split
          · simp
          · split
            · intro; rfl
            · exact ih _ _

lemma sleepChecks_detects (cancel : Nat → Bool) :
    ∀ n c i, c ≤ i → i < c + n →
      (∀ j, c ≤ j → j < i → cancel j = false) → cancel i = true →
      sleepChecks cancel n c = none := by
  intro n
  induction n with
  | zero => intro c i h1 h2; omega
  | succ n ih =>
      intro c i h1 h2 hprev hi
      rw [sleepChecks]
      rcases Nat.eq_or_lt_of_le h1 with rfl | hlt
      · simp [hi]
      · rw [hprev c (le_refl c) hlt]
        simp only [if_false, Bool.false_eq_true]
        exact ih (c + 1) i hlt (by omega) (fun j hj hj2 => hprev j (by omega) hj2) hi

lemma pmStepTrackTotal_other (pm : List (String × List String)) (st : NumTags) :
    (pmStepTrackTotal pm st).track = st.track ∧
      (pmStepTrackTotal pm st).disc = st.disc ∧
      (pmStepTrackTotal pm st).discTotal = st.discTotal := by
  simp only [pmStepTrackTotal]
  repeat' split
  all_goals exact ⟨rfl, rfl, rfl⟩

lemma pmStepTrackTotal_keep (pm : List (String × List String)) (st : NumTags)
    (h : st.trackTotal ≠ 0) : pmStepTrackTotal pm st = st := by
  simp [pmStepTrackTotal, h]

lemma pmStepTrackPair_other (pm : List (String × List String)) (st : NumTags) :
    (pmStepTrackPair pm st).disc = st.disc ∧
      (pmStepTrackPair pm st).discTotal = st.discTotal := by
  simp only [pmStepTrackPair]
  repeat' split
  all_goals exact ⟨rfl, rfl⟩

lemma pmStepTrackPair_track (pm : List (String × List String)) (st : NumTags)
    (h : st.track ≠ 0) : (pmStepTrackPair pm st).track = st.track := by
  simp only [pmStepTrackPair]
  repeat' split
  all_goals simp_all

lemma pmStepTrackPair_total (pm : List (String × List String)) (st : NumTags)
    (h : pairTot pm pmKeysTrackPair = 0) :
    (pmStepTrackPair pm st).trackTotal = st.trackTotal := by
  unfold pairTot at h
  simp only [pmStepTrackPair]
  repeat' split
  all_goals simp_all

lemma pmStepDisc_other (pm : List (String × List String)) (st : NumTags) :
    (pmStepDisc pm st).track = st.track ∧
      (pmStepDisc pm st).trackTotal = st.trackTotal ∧
      (pmStepDisc pm st).discTotal = st.discTotal := by
  simp only [pmStepDisc]
  repeat' split
  all_goals exact ⟨rfl, rfl, rfl⟩

lemma pmStepDisc_keep (pm : List (String × List String)) (st : NumTags)
    (h : st.disc ≠ 0) : pmStepDisc pm st = st := by
  simp [pmStepDisc, h]

lemma pmStepDiscTotal_other (pm : List (String × List String)) (st : NumTags) :
    (pmStepDiscTotal pm st).track = st.track ∧
      (pmStepDiscTotal pm st).trackTotal = st.trackTotal ∧
      (pmStepDiscTotal pm st).disc = st.disc := by
  simp only [pmStepDiscTotal]
  repeat' split
  all_goals exact ⟨rfl, rfl, rfl⟩

lemma pmStepDiscTotal_keep (pm : List (String × List String)) (st : NumTags)
    (h : st.discTotal ≠ 0) : pmStepDiscTotal pm st = st := by
  simp [pmStepDiscTotal, h]

lemma pmStepDiscPair_other (pm : List (String × List String)) (st : NumTags) :
    (pmStepDiscPair pm st).track = st.track ∧
      (pmStepDiscPair pm st).trackTotal = st.trackTotal := by
  simp only [pmStepDiscPair]
  repeat' split
  all_goals exact ⟨rfl, rfl⟩

lemma pmStepDiscPair_disc (pm : List (String × List String)) (st : NumTags)
    (h : st.disc ≠ 0) : (pmStepDiscPair pm st).disc = st.disc := by
  simp only [pmStepDiscPair]
  repeat' split
  all_goals simp_all

lemma pmStepDiscPair_total (pm : List (String × List String)) (st : NumTags)
    (h : pairTot pm pmKeysDiscPair = 0) :
    (pmStepDiscPair pm st).discTotal = st.discTotal := by
  unfold pairTot at h
  simp only [pmStepDiscPair]
  repeat' split
  all_goals simp_all

lemma id3StepTrck_other (trck : Option String) (st : NumTags) :
    (id3StepTrck trck st).disc = st.disc ∧
      (id3StepTrck trck st).discTotal = st.discTotal := by
  simp only [id3StepTrck]
  repeat' split
  all_goals exact ⟨rfl, rfl⟩

lemma id3StepTrck_track (trck : Option String) (st : NumTags)
    (h : st.track ≠ 0) : (id3StepTrck trck st).track = st.track := by
  simp only [id3StepTrck]
  repeat' split
  all_goals simp_all

lemma id3StepTrck_total (trck : Option String) (st : NumTags)
    (h : st.trackTotal ≠ 0) :
    (id3StepTrck trck st).trackTotal = st.trackTotal := by
  simp only [id3StepTrck]
  repeat' split
  all_goals simp_all

lemma id3StepTpos_other (tpos : Option String) (st : NumTags) :
    (id3StepTpos tpos st).track = st.track ∧
      (id3StepTpos tpos st).trackTotal = st.trackTotal := by
  simp only [id3StepTpos]
  repeat' split
  all_goals exact ⟨rfl, rfl⟩

lemma id3StepTpos_disc (tpos : Option String) (st : NumTags)
    (h : st.disc ≠ 0) : (id3StepTpos tpos st).disc = st.disc := by
  simp only [id3StepTpos]
  repeat' split
  all_goals simp_all

lemma id3StepTpos_total (tpos : Option String) (st : NumTags)
    (h : st.discTotal ≠ 0) :
    (id3StepTpos tpos st).discTotal = st.discTotal := by
  simp only [id3StepTpos]
  repeat' split
  all_goals simp_all

lemma mp4StepTrkn_other (trkn : Option (Nat × Nat)) (st : NumTags) :
    (mp4StepTrkn trkn st).disc = st.disc ∧
      (mp4StepTrkn trkn st).discTotal = st.discTotal := by
  simp only [mp4StepTrkn]
  repeat' split
  all_goals exact ⟨rfl, rfl⟩

lemma mp4StepTrkn_track (trkn : Option (Nat × Nat)) (st : NumTags)
    (h : st.track ≠ 0) : (mp4StepTrkn trkn st).track = st.track := by
  simp only [mp4StepTrkn]
  repeat' split
  all_goals simp_all

lemma mp4StepTrkn_total (trkn : Option (Nat × Nat)) (st : NumTags)
    (h : st.trackTotal ≠ 0) :
    (mp4StepTrkn trkn st).trackTotal = st.trackTotal := by
  simp only [mp4StepTrkn]
  repeat' split
  all_goals simp_all

lemma mp4StepDisk_other (disk : Option (Nat × Nat)) (st : NumTags) :
    (mp4StepDisk disk st).track = st.track ∧
      (mp4StepDisk disk st).trackTotal = st.trackTotal := by
  simp only [mp4StepDisk]
  repeat' split
  all_goals exact ⟨rfl, rfl⟩

lemma mp4StepDisk_disc (disk : Option (Nat × Nat)) (st : NumTags)
    (h : st.disc ≠ 0) : (mp4StepDisk disk st).disc = st.disc := by
  simp only [mp4StepDisk]
  repeat' split
  all_goals simp_all

lemma mp4StepDisk_total (disk : Option (Nat × Nat)) (st : NumTags)
    (h : st.discTotal ≠ 0) :
    (mp4StepDisk disk st).discTotal = st.discTotal := by
  simp only [mp4StepDisk]
  repeat' split
  all_goals simp_all

lemma firstMatch_spec (tracks : List MBTrack) (used : List Nat) (num k : Nat)
    (h : firstMatch tracks used num = some k) :
    IsFirstUnusedMatch tracks used num k := by
  have hmem := List.mem_of_find?_eq_some h
  have hklt : k < tracks.length := List.mem_range.mp hmem
  have hp := List.find?_some h
  simp only [Bool.and_eq_true, Bool.not_eq_true', decide_eq_true_eq] at hp
  unfold firstMatch at h
  rw [List.find?_eq_some] at h
  obtain ⟨-, as, bs, hxs, hall⟩ := h
  have hlen : as.length < tracks.length := by
    have hl := congrArg List.length hxs
    simp at hl
    omega
  have hkeq : k = as.length := by
    have h1 : (List.range tracks.length)[as.length]? = some k := by
      rw [hxs, List.getElem?_append_right (le_refl _)]
      simp
    rw [List.getElem?_range hlen] at h1
    exact (Option.some_inj.mp h1).symm
  refine ⟨hklt, by simpa using hp.1, hp.2, ?_⟩
  intro j hj hbad
  have hjas : j ∈ as := by
    have h2 := congrArg (List.take as.length) hxs
    rw [List.take_left] at h2
    have h3 : List.take as.length (List.range tracks.length) =
        List.range as.length := by
      rw [List.take_range]
      congr 1
      omega
    rw [h2.symm.trans h3, List.mem_range]
    omega
  have hja := hall j hjas
  simp only [Bool.not_eq_true', Bool.and_eq_false_iff, Bool.not_eq_false,
    decide_eq_false_iff_not] at hja
  rcases hja with h1 | h2
  · exact hbad.1 (by simpa using h1)
  · exact h2 hbad.2

lemma embBranch_some (tracks : List MBTrack) (used : List Nat) (f : FileInfo)
    (k : Nat) (h : (embBranch tracks used f).1 = some k) :
    0 < f.tagTrack ∧ firstMatch tracks used f.tagTrack = some k ∧
      durOk (tracks.getD k {}) f = true := by
  unfold embBranch at h
  repeat' split at h
  all_goals simp_all

lemma embBranch_mm (tracks : List MBTrack) (used : List Nat) (f : FileInfo)
    (h : (embBranch tracks used f).2 = true) :
    0 < f.tagTrack ∧ ∃ j, firstMatch tracks used f.tagTrack = some j ∧
      durOk (tracks.getD j {}) f = false := by
  unfold embBranch at h
  repeat' split at h
  all_goals simp_all

lemma fnBranch_some (tracks : List MBTrack) (used : List Nat) (f : FileInfo)
    (k : Nat) (h : fnBranch tracks used f = some k) :
    0 < f.fnTrack ∧ firstMatch tracks used f.fnTrack = some k ∧
      durOk (tracks.getD k {}) f = true := by
  unfold fnBranch at h
  repeat' split at h
  all_goals simp_all

lemma matchFile_some (tracks : List MBTrack) (used : List Nat) (f : FileInfo)
    (k : Nat) (h : (matchFile tracks used f).1 = some k) :
    IsFirstUnusedMatch tracks used f.tagTrack k ∨
      IsFirstUnusedMatch tracks used f.fnTrack k := by
  unfold matchFile at h
  split at h
  next k1 b heq =>
    left
    obtain ⟨-, hf, -⟩ := embBranch_some tracks used f k1 (by rw [heq])
    simp only [Option.some_inj] at h
    rw [← h]
    exact firstMatch_spec _ _ _ _ hf
  next mm heq =>
    right
    obtain ⟨-, hf, -⟩ := fnBranch_some tracks used f k h
    exact firstMatch_spec _ _ _ _ hf

lemma matchFile_mm (tracks : List MBTrack) (used : List Nat) (f : FileInfo)
    (h : (matchFile tracks used f).2 = true) :
    0 < f.tagTrack ∧ ∃ j, IsFirstUnusedMatch tracks used f.tagTrack j ∧
      durOk (tracks.getD j {}) f = false := by
  unfold matchFile at h
  split at h
  next k1 b heq => simp at h
  next mm heq =>
    simp only at h
    obtain ⟨h1, j, hj, hd⟩ := embBranch_mm tracks used f (by rw [heq, h])
    exact ⟨h1, j, firstMatch_spec _ _ _ _ hj, hd⟩

lemma advance_ge (M : Nat) (used : List Nat) :
    ∀ fuel next, next ≤ advance M used fuel next := by
  intro fuel
  induction fuel with
  | zero => intro next; rw [advance]
  | succ f ih =>
      intro next
      rw [advance]
      split
      · exact le_trans (Nat.le_succ next) (ih (next + 1))
      · exact le_refl next

lemma advance_mem (M : Nat) (used : List Nat) :
    ∀ fuel next i, next ≤ i → i < advance M used fuel next → i ∈ used := by
  intro fuel
  induction fuel with
  | zero => intro next i h1 h2; rw [advance] at h2; omega
  | succ f ih =>
      intro next i h1 h2
      rw [advance] at h2
      split at h2
      next hx =>
        rcases Nat.eq_or_lt_of_le h1 with rfl | hlt
        · simpa using hx.2
        · exact ih (next + 1) i hlt h2
      next hx => omega

lemma advance_unused (M : Nat) (used : List Nat) :
    ∀ fuel next, M - next ≤ fuel → advance M used fuel next < M →
      advance M used fuel next ∉ used := by
  intro fuel
  induction fuel with
  | zero =>
      intro next hf h1
      rw [advance] at h1 ⊢
      omega
  | succ f ih =>
      intro next hf
      rw [advance]
      split
      next hx => exact ih (next + 1) (by omega)
      next hx =>
        intro h1 h2
        exact hx ⟨h1, by simpa using h2⟩

lemma advance_found (M : Nat) (used : List Nat) (j : Nat) (hjM : j < M)
    (hju : j ∉ used) :
    ∀ fuel next, M - next ≤ fuel → (∀ i < next, i ∈ used) →
      advance M used fuel next < M := by
  intro fuel
  induction fuel with
  | zero =>
      intro next hf hbelow
      rw [advance]
      by_contra hxM
      exact hju (hbelow j (by omega))
  | succ f ih =>
      intro next hf hbelow
      rw [advance]
      split
      next hx =>
        refine ih (next + 1) (by omega) fun i hi => ?_
        rcases Nat.lt_succ_iff_lt_or_eq.mp hi with h | rfl
        · exact hbelow i h
        · simpa using hx.2
      next hx =>
        by_contra hxM
        exact hju (hbelow j (by omega))

lemma exists_unused (M : Nat) (used : List Nat) (hn : used.Nodup)
    (_hb : ∀ x ∈ used, x < M) (hl : used.length < M) :
    ∃ j, j < M ∧ j ∉ used := by
  by_contra hcon
  push_neg at hcon
  have hsub : Finset.range M ⊆ used.toFinset := by
    intro j hj
    exact List.mem_toFinset.mpr (hcon j (Finset.mem_range.mp hj))
  have hcard : M ≤ used.toFinset.card := by
    calc M = (Finset.range M).card := (Finset.card_range M).symm
      _ ≤ used.toFinset.card := Finset.card_le_card hsub
  have hlen : used.toFinset.card = used.length := List.toFinset_card_of_nodup hn
  omega

lemma somes_cons_some (k : Nat) (m : List (Option Nat)) :
    somes (some k :: m) = k :: somes m := rfl

lemma somes_cons_none (m : List (Option Nat)) :
    somes (none :: m) = somes m := rfl

lemma countNone_cons_some (k : Nat) (m : List (Option Nat)) :
    countNone (some k :: m) = countNone m := rfl

lemma countNone_cons_none (m : List (Option Nat)) :
    countNone (none :: m) = countNone m + 1 := rfl

lemma somes_length_countNone :
    ∀ m : List (Option Nat), (somes m).length + countNone m = m.length := by
  intro m
  induction m with
  | nil => rfl
  | cons a m ih =>
      cases a with
      | none => rw [somes_cons_none, countNone_cons_none]; simp; omega
      | some k =>
          rw [somes_cons_some, countNone_cons_some]
          simp only [List.length_cons]
          omega

lemma pass1_inv (tracks : List MBTrack) :
    ∀ (files : List FileInfo) (used : List Nat),
      (pass1 tracks files used).map.length = files.length ∧
        (∀ x ∈ used, x ∈ (pass1 tracks files used).used) ∧
        (∀ x ∈ (pass1 tracks files used).used,
          x ∈ used ∨ x ∈ somes (pass1 tracks files used).map) ∧
        (∀ k ∈ somes (pass1 tracks files used).map,
          k ∈ (pass1 tracks files used).used ∧ k ∉ used ∧ k < tracks.length) ∧
        (somes (pass1 tracks files used).map).Nodup ∧
        (used.Nodup → (pass1 tracks files used).used.Nodup) ∧
        (pass1 tracks files used).used.length =
          used.length + (somes (pass1 tracks files used).map).length ∧
        (pass1 tracks files used).matched =
          (somes (pass1 tracks files used).map).length := by
  intro files
  induction files with
  | nil =>
      intro used
      simp [pass1, somes]
  | cons f fs ih =>
      intro used
      rcases hm : matchFile tracks used f with ⟨a, mmf⟩
      cases a with
      | none =>
          have hp : pass1 tracks (f :: fs) used =
              ⟨none :: (pass1 tracks fs used).map, (pass1 tracks fs used).used,
                (pass1 tracks fs used).matched,
                mmf || (pass1 tracks fs used).mismatch⟩ := by
            rw [pass1, hm]
          obtain ⟨ih1, ih2, ih3, ih4, ih5, ih6, ih7, ih8⟩ := ih used
          rw [hp]
          simp only [somes_cons_none, List.length_cons]
          exact ⟨by rw [ih1], ih2, ih3, ih4, ih5, ih6, ih7, ih8⟩
      | some k =>
          have hfresh : k < tracks.length ∧ k ∉ used := by
            rcases matchFile_some tracks used f k (by rw [hm]) with h | h
            · exact ⟨h.1, h.2.1⟩
            · exact ⟨h.1, h.2.1⟩
          have hp : pass1 tracks (f :: fs) used =
              ⟨some k :: (pass1 tracks fs (k :: used)).map,
                (pass1 tracks fs (k :: used)).used,
                (pass1 tracks fs (k :: used)).matched + 1,
                mmf || (pass1 tracks fs (k :: used)).mismatch⟩ := by
            rw [pass1, hm]
          obtain ⟨ih1, ih2, ih3, ih4, ih5, ih6, ih7, ih8⟩ := ih (k :: used)
          rw [hp]
          simp only [somes_cons_some, List.length_cons]
          refine ⟨by rw [ih1], ?_, ?_, ?_, ?_, ?_, ?_, ?_⟩
          · exact fun x hx => ih2 x (List.mem_cons_of_mem _ hx)
          · intro x hx
            rcases ih3 x hx with hxu | hxs
            · rcases List.mem_cons.mp hxu with rfl | hxu2
              · exact Or.inr (List.mem_cons_self _ _)
              · exact Or.inl hxu2
            · exact Or.inr (List.mem_cons_of_mem _ hxs)
          · intro j hj
            rcases List.mem_cons.mp hj with rfl | hj2
            · exact ⟨ih2 j (List.mem_cons_self _ _), hfresh.2, hfresh.1⟩
            · obtain ⟨hj3, hj4, hj5⟩ := ih4 j hj2
              exact ⟨hj3, fun hju => hj4 (List.mem_cons_of_mem _ hju), hj5⟩
          · rw [List.nodup_cons]
            refine ⟨fun hk => ?_, ih5⟩
            obtain ⟨-, hk2, -⟩ := ih4 k hk
            exact hk2 (List.mem_cons_self _ _)
          · intro hn
            exact ih6 (List.nodup_cons.mpr ⟨hfresh.2, hn⟩)
          · rw [ih7]
            simp only [List.length_cons]
            omega
          · rw [ih8]

lemma fallbackFill_inv (M : Nat) :
    ∀ (m : List (Option Nat)) (used : List Nat) (next : Nat),
      (∀ k ∈ somes m, k ∈ used) →
      (somes m).Nodup →
      used.Nodup →
      (∀ x ∈ used, x < M) →
      (∀ i < next, i ∈ used) →
      ((fallbackFill M m used next).1.length = m.length ∧
        (somes (fallbackFill M m used next).1).Nodup ∧
        (∀ j ∈ somes (fallbackFill M m used next).1, j ∈ somes m ∨ j ∉ used) ∧
        (used.length + countNone m ≤ M →
          ∀ x ∈ (fallbackFill M m used next).1, x.isSome = true)) := by
  intro m
  induction m with
  | nil =>
      intro used next _ _ _ _ _
      simp [fallbackFill, somes]
  | cons a m ih =>
      intro used next hsub hnd hu hb hnext
      cases a with
      | some k =>
          rw [somes_cons_some] at hsub hnd
          have hksub := hsub k (List.mem_cons_self _ _)
          have hsub2 := fun j hj => hsub j (List.mem_cons_of_mem _ hj)
          obtain ⟨ih1, ih2, ih3, ih4⟩ := ih used next hsub2 hnd.of_cons hu hb hnext
          have hfb : fallbackFill M (some k :: m) used next =
              (some k :: (fallbackFill M m used next).1,
                (fallbackFill M m used next).2) := by
            rw [fallbackFill]
          rw [hfb]
          simp only [somes_cons_some, countNone_cons_some, List.length_cons]
          refine ⟨by rw [ih1], ?_, ?_, ?_⟩
          · rw [List.nodup_cons]
            refine ⟨fun hk => ?_, ih2⟩
            rcases ih3 k hk with hk1 | hk2
            · exact (List.nodup_cons.mp hnd).1 hk1
            · exact hk2 hksub
          · intro j hj
            rcases List.mem_cons.mp hj with rfl | hj2
            · exact Or.inl (List.mem_cons_self _ _)
            · rcases ih3 j hj2 with h1 | h2
              · exact Or.inl (List.mem_cons_of_mem _ h1)
              · exact Or.inr h2
          · intro hcap x hx
            rcases List.mem_cons.mp hx with rfl | hx2
            · rfl
            · exact ih4 hcap x hx2
      | none =>
          rw [somes_cons_none] at hsub hnd
          by_cases hn : advance M used (M - next) next < M
          · have hnotin : advance M used (M - next) next ∉ used := advance_unused M used (M - next) next (le_refl _) hn
            have hfb : fallbackFill M (none :: m) used next =
                (some (advance M used (M - next) next) ::
                    (fallbackFill M m (advance M used (M - next) next :: used) (advance M used (M - next) next)).1,
                  (fallbackFill M m (advance M used (M - next) next :: used) (advance M used (M - next) next)).2) := by
              rw [fallbackFill]
              simp [hn]
            have hsub2 : ∀ j ∈ somes m, j ∈ advance M used (M - next) next :: used :=
              fun j hj => List.mem_cons_of_mem _ (hsub j hj)
            have hu2 : (advance M used (M - next) next :: used).Nodup :=
              List.nodup_cons.mpr ⟨hnotin, hu⟩
            have hb2 : ∀ x ∈ advance M used (M - next) next :: used, x < M := by
              intro x hx
              rcases List.mem_cons.mp hx with rfl | hx2
              · exact hn
              · exact hb x hx2
            have hnext2 : ∀ i < advance M used (M - next) next, i ∈ advance M used (M - next) next :: used := by
              intro i hi
              rcases Nat.lt_or_ge i next with h1 | h1
              · exact List.mem_cons_of_mem _ (hnext i h1)
              · exact List.mem_cons_of_mem _ (advance_mem M used (M - next) next i h1 hi)
            obtain ⟨ih1, ih2, ih3, ih4⟩ := ih _ _ hsub2 hnd hu2 hb2 hnext2
            rw [hfb]
            simp only [somes_cons_some, countNone_cons_none, List.length_cons]
            refine ⟨by rw [ih1], ?_, ?_, ?_⟩
            · rw [List.nodup_cons]
              refine ⟨fun hk => ?_, ih2⟩
              rcases ih3 _ hk with hk1 | hk2
              · exact hnotin (hsub _ hk1)
              · exact hk2 (List.mem_cons_self _ _)
            · intro j hj
              rcases List.mem_cons.mp hj with rfl | hj2
              · exact Or.inr hnotin
              · rcases ih3 j hj2 with h1 | h2
                · exact Or.inl h1
                · exact Or.inr fun hju => h2 (List.mem_cons_of_mem _ hju)
            · intro hcap x hx
              rcases List.mem_cons.mp hx with rfl | hx2
              · rfl
              · refine ih4 ?_ x hx2
                simp only [List.length_cons]
                omega
          · have hfb : fallbackFill M (none :: m) used next =
                (none :: (fallbackFill M m used (advance M used (M - next) next)).1,
                  (fallbackFill M m used (advance M used (M - next) next)).2) := by
              rw [fallbackFill]
              simp [hn]
            have hnext2 : ∀ i < advance M used (M - next) next, i ∈ used := by
              intro i hi
              rcases Nat.lt_or_ge i next with h1 | h1
              · exact hnext i h1
              · exact advance_mem M used (M - next) next i h1 hi
            obtain ⟨ih1, ih2, ih3, ih4⟩ := ih _ _ hsub hnd hu hb hnext2
            rw [hfb]
            simp only [somes_cons_none, countNone_cons_none, List.length_cons]
            refine ⟨by rw [ih1], ih2, ih3, ?_⟩
            intro hcap
            exfalso
            obtain ⟨j, hjM, hju⟩ := exists_unused M used hu hb (by omega)
            exact hn (advance_found M used j hjM hju (M - next) next (le_refl _) hnext)

lemma somes_nodup_pairwise (m : List (Option Nat)) (h : (somes m).Nodup) :
    m.Pairwise (fun a b => ∀ v : Nat, a = some v → b ≠ some v) := by
  induction m with
  | nil => exact List.Pairwise.nil
  | cons a m ih =>
      cases a with
      | none =>
          rw [somes_cons_none] at h
          exact List.Pairwise.cons (fun b _ v hv => absurd hv (by simp)) (ih h)
      | some k =>
          rw [somes_cons_some, List.nodup_cons] at h
          refine List.Pairwise.cons ?_ (ih h.2)
          intro b hb v hv hbv
          cases hv
          rw [hbv] at hb
          exact h.1 (List.mem_filterMap.mpr ⟨some k, hb, rfl⟩)

/-! ## Claim theorems -/

/-- C4: `GetReleaseDetails` never lets an exception escape: a failing
query (`Except.error`, covering network errors, timeouts and parse
errors, all caught by the surrounding `try/catch(...)`) yields the
default release structure for the requested id, whose track list is
empty. -/
theorem getReleaseDetails_error_empty :
    ∀ (releaseId e : String) (cancel : Bool),
      getReleaseDetails releaseId cancel (Except.error e) =
          { releaseId := releaseId } ∧
        (getReleaseDetails releaseId cancel (Except.error e)).tracks = [] := by
  intro releaseId e cancel
  cases cancel <;> exact ⟨rfl, rfl⟩

/-- C7: for a `FetchCover` call with a positive size hint (on a release,
not cancelled): a 404 on the sized URL causes exactly one fallback
request to the unsized URL of the same entity and nothing further,
whatever the fallback's status; a 200 on the sized URL causes no
fallback request. -/
theorem fetchCover_fallback_once :
    ∀ (status : String → Nat) (entityId : String) (sizeHint : Nat),
      0 < sizeHint →
      ((status (coverUrl "release" entityId (some sizeHint)) = 404 →
          (fetchCover status entityId sizeHint false false).1 =
            [coverUrl "release" entityId (some sizeHint),
             coverUrl "release" entityId none]) ∧
        (status (coverUrl "release" entityId (some sizeHint)) = 200 →
          (fetchCover status entityId sizeHint false false).1 =
            [coverUrl "release" entityId (some sizeHint)])) := by
  intro status entityId sizeHint hpos
  constructor
  · intro h404
    rw [fetchCover]
    by_cases hu : status (coverUrl "release" entityId none) = 200 <;>
      simp [fetchCover, hu, h404, hpos]
  · intro h200
    rw [fetchCover]
    simp [hpos, h200]

/-- Closed witness for `fetchCover_fallback_once` at a concrete status
oracle and size hint. -/
theorem fetchCover_fallback_once_witness :
    (fetchCover (fun _ => 404) "e1" 500 false false).1 =
      [coverUrl "release" "e1" (some 500), coverUrl "release" "e1" none] :=
  (fetchCover_fallback_once (fun _ => 404) "e1" 500 (by decide)).1 rfl

/-- C8 (amended): consecutive recorded *rate-limited* call times (those
that pass through `_RespectRateLimit`) are at least 1.1 s (1100000 µs)
apart; the post-wait time is at least 1.1 s after the previous recorded
time; `SearchRecording` records the post-wait time as the new last-call
time unconditionally — whatever the retry loop and the later
cancellation checks do —, so a call that is cancelled after being issued
still consumes a rate-limit slot; but consecutive *retry attempts*
inside one call are spaced only by the failed attempt's duration plus
the 1.0 s polling sleep — not by the 1.1 s rate limit. -/
theorem rateLimit_spacing :
    (∀ (t0 : Nat) (ds : List Nat),
        List.Chain' (fun a b => a + 1100000 ≤ b) (rateTrace t0 ds)) ∧
      (∀ lastCall now : Nat, lastCall ≤ now →
        lastCall + 1100000 ≤ respectRateLimit lastCall now) ∧
      (∀ (lastCall now : Nat)
          (attempt : Nat → Except String (Option (List RecIn)))
          (cancel : Nat → Bool), cancel 0 = false →
        (searchRecording lastCall now attempt cancel).newLastCall =
          respectRateLimit lastCall now) ∧
      (∀ (ds : List Nat) (t : Nat),
        List.Chain' (fun a b => a + retrySleepMicros ≤ b)
          (attemptStarts t ds)) := by
  refine ⟨?_, respectRateLimit_ge, ?_, attemptStarts_chain⟩
  · intro t0 ds
    cases ds with
    | nil => simp [rateTrace]
    | cons d ds => rw [rateTrace]; exact rateTrace_chain _ _
  · intro lastCall now attempt cancel h0
    simp [searchRecording, h0]

/-- C8 (counterexample): two consecutive outbound retry attempts of one
call, when the attempts fail immediately, start exactly 1 000 000 µs
apart — less than the claimed ~1.1 s minimum spacing. -/
theorem rateLimit_retry_counterexample :
    attemptStarts 0 [0, 0] = [0, 1000000] ∧
      ¬List.Chain' (fun a b => a + 1100000 ≤ b) (attemptStarts 0 [0, 0]) := by
  have he : attemptStarts 0 [0, 0] = [0, 1000000] := rfl
  refine ⟨he, fun h => ?_⟩
  rw [he, List.chain'_pair] at h
  omega

/-- Closed witness for `rateLimit_spacing` at concrete inputs. -/
theorem rateLimit_spacing_witness :
    5 + 1100000 ≤ respectRateLimit 5 7 ∧
      (searchRecording 5 7 (fun _ => Except.error "x")
          (fun c => decide (2 ≤ c))).newLastCall = respectRateLimit 5 7 :=
  ⟨rateLimit_spacing.2.1 5 7 (by decide),
    rateLimit_spacing.2.2.1 5 7 (fun _ => Except.error "x")
      (fun c => decide (2 ≤ c)) (by decide)⟩

/-- C9: `SearchRecording` issues at most 3 network attempts; a
cancellation seen at the initial check returns the empty hit list with
nothing recorded; a cancellation detected anywhere in the retry loop
(loop head or one of the ten polling sleeps between attempts) leaves the
metadata empty, so the hit list comes back empty; and the polling sleeps
do detect a predicate that becomes true at any poll. -/
theorem searchRecording_retry_cancel :
    ∀ (lastCall now : Nat)
      (attempt : Nat → Except String (Option (List RecIn)))
      (cancel : Nat → Bool),
      (searchRecording lastCall now attempt cancel).attemptsMade ≤ 3 ∧
        (cancel 0 = true →
          searchRecording lastCall now attempt cancel = ⟨[], lastCall, 0⟩) ∧
        ((retryLoop attempt cancel 3 0 1).cancelled = true →
          (searchRecording lastCall now attempt cancel).hits = []) ∧
        (∀ n c i, c ≤ i → i < c + n →
          (∀ j, c ≤ j → j < i → cancel j = false) → cancel i = true →
          sleepChecks cancel n c = none) := by
  intro lastCall now attempt cancel
  refine ⟨?_, ?_, ?_, sleepChecks_detects cancel⟩
  · by_cases h0 : cancel 0 = true
    · simp [searchRecording, h0]
    · simp only [searchRecording, h0, if_false, Bool.false_eq_true]
      simpa using retryLoop_attempts_le attempt cancel 3 0 1
  · intro h0; simp [searchRecording, h0]
  · intro hc
    by_cases h0 : cancel 0 = true
    · simp [searchRecording, h0]
    · simp only [searchRecording, h0, if_false, Bool.false_eq_true]
      rw [retryLoop_cancelled_meta attempt cancel 3 0 1 hc]

/-- Closed witness for `searchRecording_retry_cancel`: all attempts fail
and cancellation never fires — at most 3 attempts are made; and a
predicate true from the start yields the empty result. -/
theorem searchRecording_retry_cancel_witness :
    (searchRecording 0 0 (fun _ => Except.error "x")
        (fun _ => false)).attemptsMade ≤ 3 ∧
      searchRecording 0 0 (fun _ => Except.error "x") (fun _ => true) =
        ⟨[], 0, 0⟩ :=
  ⟨(searchRecording_retry_cancel 0 0 (fun _ => Except.error "x")
      (fun _ => false)).1,
    (searchRecording_retry_cancel 0 0 (fun _ => Except.error "x")
      (fun _ => true)).2.1 rfl⟩

/-- C3: the flattening of one recording yields exactly one hit per
(recording, release) pair: with a non-empty release list of length R it
yields exactly R hits, the j-th carrying the recording's id, title and
artist and the j-th release's fields; with a null or empty release list
it yields exactly one hit whose release fields are empty. -/
theorem searchRecording_flattening :
    ∀ rec : RecIn,
      (∀ rl : List RelIn, rec.releases = some rl → 0 < rl.length →
        (flattenRecording rec).length = rl.length ∧
          ∀ j, ∀ hj : j < rl.length,
            (flattenRecording rec)[j]? =
                some (releaseHit rec (rl.get ⟨j, hj⟩)) ∧
              (releaseHit rec (rl.get ⟨j, hj⟩)).recordingId =
                (baseHit rec).recordingId ∧
              (releaseHit rec (rl.get ⟨j, hj⟩)).title = (baseHit rec).title ∧
              (releaseHit rec (rl.get ⟨j, hj⟩)).artist = (baseHit rec).artist ∧
              (releaseHit rec (rl.get ⟨j, hj⟩)).releaseId =
                (rl.get ⟨j, hj⟩).id ∧
              (releaseHit rec (rl.get ⟨j, hj⟩)).releaseTitle =
                (rl.get ⟨j, hj⟩).title ∧
              (releaseHit rec (rl.get ⟨j, hj⟩)).country =
                (rl.get ⟨j, hj⟩).country) ∧
        ((rec.releases = none ∨ rec.releases = some []) →
          flattenRecording rec = [baseHit rec] ∧
            (baseHit rec).releaseId = "" ∧ (baseHit rec).releaseTitle = "" ∧
            (baseHit rec).country = "" ∧ (baseHit rec).year = 0 ∧
            (baseHit rec).trackCount = 0) := by
  intro rec
  constructor
  · intro rl hrl hpos
    rw [flattenRecording, hrl]
    simp only [hpos, if_pos]
    refine ⟨List.length_map _ _, ?_⟩
    intro j hj
    refine ⟨?_, rfl, rfl, rfl, rfl, rfl, rfl⟩
    rw [List.getElem?_map, List.getElem?_eq_getElem hj]
    rfl
  · intro h
    have hflat : flattenRecording rec = [baseHit rec] := by
      rcases h with h | h <;> (rw [flattenRecording, h]; try simp)
    exact ⟨hflat, rfl, rfl, rfl, rfl, rfl⟩

/-- Closed witness for `searchRecording_flattening`: a recording with
three releases yields one hit per release; one with a null release list
yields exactly one hit. -/
theorem searchRecording_flattening_witness :
    (flattenRecording { id := "r", releases := some rls3 }).length =
        rls3.length ∧
      flattenRecording { id := "r", releases := none } =
        [baseHit { id := "r", releases := none }] :=
  ⟨((searchRecording_flattening _).1 rls3 rfl (by decide)).1,
    ((searchRecording_flattening _).2 (Or.inl rfl)).1⟩

/-- C5 (failing input): tag writing is not idempotent on every file.  On
an ID3v2 tag carrying two TPE2 (album-artist) frames, writing a record
with an empty album artist removes only the *front* TPE2 frame, so a
second identical write removes the surviving frame as well: the tag
structures after the first and the second write differ, and the album
artist reads back differently (`"X"` after one write, `""` after two). -/
theorem writeTags_second_write_differs :
    readAlbumArtistID3 (writeID3 {} (writeID3 {} { tpe2 := ["A", "X"] })) ≠
        readAlbumArtistID3 (writeID3 {} { tpe2 := ["A", "X"] }) ∧
      writeID3 {} (writeID3 {} { tpe2 := ["A", "X"] }) ≠
        writeID3 {} { tpe2 := ["A", "X"] } := by
  decide

/-- C6 (counterexample): field resolution in `ReadTags` is not stable
for the totals.  With a dedicated `TRACKTOTAL` of 12 (the first
non-empty source, which fills `trackTotal` first) and a slash pair
`TRACKNUMBER = "3/10"`, the later pair source overwrites the populated
`trackTotal` with 10. -/
theorem readTags_overwrite_counterexample :
    getProp pmC6 pmKeysTrackTotal = some "12" ∧
      toUInt "12" = 12 ∧
      (pmStepTrackTotal pmC6 { track := 0 }).trackTotal = 12 ∧
      (readTagsNums 0 pmC6 none none none none).trackTotal = 10 ∧
      (readTagsNums 0 pmC6 none none none none).track = 3 := by
  decide

/-- C6 (amended): first non-empty source wins and populated fields are
never overwritten, *except* that within the generic layer a non-zero
slash-pair total (TRACKNUMBER/TRCK/trkn resp. TPOS/DISCNUMBER/disk)
overwrites an already-populated track/disc total.  Precisely: `track`
and `disc`, once populated, survive every layer; `trackTotal` and
`discTotal` survive the generic layer whenever its slash pair supplies
no total, and always survive the later ID3v2 and MP4 layers. -/
theorem readTags_resolution_stable :
    ∀ (pm : List (String × List String)) (trck tpos : Option String)
      (trkn disk : Option (Nat × Nat)) (st : NumTags),
      (st.track ≠ 0 → (resolvePm pm st).track = st.track) ∧
        (st.disc ≠ 0 → (resolvePm pm st).disc = st.disc) ∧
        (st.trackTotal ≠ 0 → pairTot pm pmKeysTrackPair = 0 →
          (resolvePm pm st).trackTotal = st.trackTotal) ∧
        (st.discTotal ≠ 0 → pairTot pm pmKeysDiscPair = 0 →
          (resolvePm pm st).discTotal = st.discTotal) ∧
        (st.track ≠ 0 → (resolveID3 trck tpos st).track = st.track) ∧
        (st.trackTotal ≠ 0 →
          (resolveID3 trck tpos st).trackTotal = st.trackTotal) ∧
        (st.disc ≠ 0 → (resolveID3 trck tpos st).disc = st.disc) ∧
        (st.discTotal ≠ 0 →
          (resolveID3 trck tpos st).discTotal = st.discTotal) ∧
        (st.track ≠ 0 → (resolveMP4 trkn disk st).track = st.track) ∧
        (st.trackTotal ≠ 0 →
          (resolveMP4 trkn disk st).trackTotal = st.trackTotal) ∧
        (st.disc ≠ 0 → (resolveMP4 trkn disk st).disc = st.disc) ∧
        (st.discTotal ≠ 0 →
          (resolveMP4 trkn disk st).discTotal = st.discTotal) := by
  intro pm trck tpos trkn disk st
  refine ⟨?_, ?_, ?_, ?_, ?_, ?_, ?_, ?_, ?_, ?_, ?_, ?_⟩
  · intro h
    unfold resolvePm
    have h1 : (pmStepTrackTotal pm st).track ≠ 0 := by
      rw [(pmStepTrackTotal_other pm st).1]; exact h
    rw [(pmStepDiscPair_other pm _).1, (pmStepDiscTotal_other pm _).1,
      (pmStepDisc_other pm _).1, pmStepTrackPair_track pm _ h1,
      (pmStepTrackTotal_other pm st).1]
  · intro h
    unfold resolvePm
    have h1 : (pmStepTrackPair pm (pmStepTrackTotal pm st)).disc ≠ 0 := by
      rw [(pmStepTrackPair_other pm _).1, (pmStepTrackTotal_other pm st).2.1]
      exact h
    rw [pmStepDiscPair_disc pm _ (by
        rw [(pmStepDiscTotal_other pm _).2.2, pmStepDisc_keep pm _ h1]
        exact h1),
      (pmStepDiscTotal_other pm _).2.2, pmStepDisc_keep pm _ h1,
      (pmStepTrackPair_other pm _).1, (pmStepTrackTotal_other pm st).2.1]
  · intro h hp
    unfold resolvePm
    rw [pmStepTrackTotal_keep pm st h,
      (pmStepDiscPair_other pm _).2, (pmStepDiscTotal_other pm _).2.1,
      (pmStepDisc_other pm _).2.1, pmStepTrackPair_total pm st hp]
  · intro h hp
    unfold resolvePm
    have h1 : (pmStepDisc pm (pmStepTrackPair pm (pmStepTrackTotal pm st))).discTotal ≠ 0 := by
      rw [(pmStepDisc_other pm _).2.2, (pmStepTrackPair_other pm _).2,
        (pmStepTrackTotal_other pm st).2.2]
      exact h
    rw [pmStepDiscPair_total pm _ hp, pmStepDiscTotal_keep pm _ h1,
      (pmStepDisc_other pm _).2.2, (pmStepTrackPair_other pm _).2,
      (pmStepTrackTotal_other pm st).2.2]
  · intro h
    unfold resolveID3
    rw [(id3StepTpos_other tpos _).1, id3StepTrck_track trck st h]
  · intro h
    unfold resolveID3
    rw [(id3StepTpos_other tpos _).2, id3StepTrck_total trck st h]
  · intro h
    unfold resolveID3
    have h1 : (id3StepTrck trck st).disc ≠ 0 := by
      rw [(id3StepTrck_other trck st).1]; exact h
    rw [id3StepTpos_disc tpos _ h1, (id3StepTrck_other trck st).1]
  · intro h
    unfold resolveID3
    have h1 : (id3StepTrck trck st).discTotal ≠ 0 := by
      rw [(id3StepTrck_other trck st).2]; exact h
    rw [id3StepTpos_total tpos _ h1, (id3StepTrck_other trck st).2]
  · intro h
    unfold resolveMP4
    rw [(mp4StepDisk_other disk _).1, mp4StepTrkn_track trkn st h]
  · intro h
    unfold resolveMP4
    rw [(mp4StepDisk_other disk _).2, mp4StepTrkn_total trkn st h]
  · intro h
    unfold resolveMP4
    have h1 : (mp4StepTrkn trkn st).disc ≠ 0 := by
      rw [(mp4StepTrkn_other trkn st).1]; exact h
    rw [mp4StepDisk_disc disk _ h1, (mp4StepTrkn_other trkn st).1]
  · intro h
    unfold resolveMP4
    have h1 : (mp4StepTrkn trkn st).discTotal ≠ 0 := by
      rw [(mp4StepTrkn_other trkn st).2]; exact h
    rw [mp4StepDisk_total disk _ h1, (mp4StepTrkn_other trkn st).2]

/-- Closed witness for `readTags_resolution_stable` at concrete
populated fields and sources. -/
theorem readTags_resolution_stable_witness :
    (resolvePm [] { track := 7, trackTotal := 4, disc := 2, discTotal := 3 }).track = 7 ∧
      (resolveID3 (some "9/9") (some "9/9")
        { track := 7, trackTotal := 4, disc := 2, discTotal := 3 }).trackTotal = 4 ∧
      (resolveMP4 (some (9, 9)) (some (9, 9))
        { track := 7, trackTotal := 4, disc := 2, discTotal := 3 }).discTotal = 3 :=
  ⟨(readTags_resolution_stable [] none none none none
      { track := 7, trackTotal := 4, disc := 2, discTotal := 3 }).1 (by decide),
    (readTags_resolution_stable [] (some "9/9") (some "9/9") none none
      { track := 7, trackTotal := 4, disc := 2, discTotal := 3 }).2.2.2.2.2.1 (by decide),
    (readTags_resolution_stable [] none none (some (9, 9)) (some (9, 9))
      { track := 7, trackTotal := 4, disc := 2, discTotal := 3 }).2.2.2.2.2.2.2.2.2.2.2 (by decide)⟩

/-- C2: after both passes no two file positions hold the same track
index (the assigned indices form a duplicate-free list, equivalently the
map is pairwise-distinct on its assigned entries), the map has one entry
per file, and whenever the file count is at most the remote track count
every file receives some assignment (the fallback fill walks the remote
track list in order and hands each still-unassigned file the next unused
index). -/
theorem reconcile_injective_total :
    ∀ (tracks : List MBTrack) (files : List FileInfo),
      (somes (reconcile tracks files).map).Nodup ∧
        (reconcile tracks files).map.Pairwise
          (fun a b => ∀ v : Nat, a = some v → b ≠ some v) ∧
        (reconcile tracks files).map.length = files.length ∧
        (files.length ≤ tracks.length →
          ∀ x ∈ (reconcile tracks files).map, x.isSome = true) := by
  intro tracks files
  obtain ⟨p1, p2, p3, p4, p5, p6, p7, p8⟩ := pass1_inv tracks files []
  have hsub : ∀ k ∈ somes (pass1 tracks files []).map,
      k ∈ (pass1 tracks files []).used := fun k hk => (p4 k hk).1
  have hu : (pass1 tracks files []).used.Nodup := p6 List.nodup_nil
  have hb : ∀ x ∈ (pass1 tracks files []).used, x < tracks.length := by
    intro x hx
    rcases p3 x hx with h | h
    · exact absurd h (List.not_mem_nil x)
    · exact (p4 x h).2.2
  have hnext : ∀ i < 0, i ∈ (pass1 tracks files []).used :=
    fun i hi => absurd hi (Nat.not_lt_zero i)
  obtain ⟨f1, f2, f3, f4⟩ := fallbackFill_inv tracks.length
    (pass1 tracks files []).map (pass1 tracks files []).used 0 hsub p5 hu hb hnext
  have hr : (reconcile tracks files).map =
      (fallbackFill tracks.length (pass1 tracks files []).map
        (pass1 tracks files []).used 0).1 := rfl
  refine ⟨hr ▸ f2, ?_, ?_, ?_⟩
  · exact somes_nodup_pairwise _ (hr ▸ f2)
  · rw [hr, f1, p1]
  · intro hle
    rw [hr]
    refine f4 ?_
    have hc := somes_length_countNone (pass1 tracks files []).map
    have h7 : (pass1 tracks files []).used.length =
        (somes (pass1 tracks files []).map).length := by simpa using p7
    omega

/-- C10: in pass 1, any index a file is assigned is the *first* unused
remote track whose number equals the candidate number (embedded-tag or
filename-derived), so later unused tracks with the same number are never
considered for that file; the duration-mismatch flag a file contributes
can only come from the embedded-tag branch — its first match failed the
15-second test — and a file without an embedded track number never sets
it. -/
theorem pass1_first_match_only :
    ∀ (tracks : List MBTrack) (used : List Nat) (f : FileInfo),
      (∀ k, (matchFile tracks used f).1 = some k →
        IsFirstUnusedMatch tracks used f.tagTrack k ∨
          IsFirstUnusedMatch tracks used f.fnTrack k) ∧
        ((matchFile tracks used f).2 = true →
          0 < f.tagTrack ∧ ∃ j, IsFirstUnusedMatch tracks used f.tagTrack j ∧
            durOk (tracks.getD j {}) f = false) ∧
        (f.tagTrack = 0 → (matchFile tracks used f).2 = false) := by
  intro tracks used f
  refine ⟨fun k h => matchFile_some tracks used f k h,
    matchFile_mm tracks used f, fun h0 => ?_⟩
  unfold matchFile embBranch
  simp [h0]

/-- C1 (amended): the mapping is confident iff every file received some
assignment AND no duration mismatch was recorded in pass 1 AND the count
of pass-1 assignments is at least ⌊file count / 2⌋ (half rounded *down*,
the source's integer division — not "at least half" exactly); `matched`
really counts the pass-1 assignments, and a single recorded mismatch
makes the whole batch not confident. -/
theorem confident_iff_floor_half :
    ∀ (tracks : List MBTrack) (files : List FileInfo),
      (confident tracks files = true ↔
        allMapped (reconcile tracks files) = true ∧
          (reconcile tracks files).mismatch = false ∧
          files.length / 2 ≤ (reconcile tracks files).matched) ∧
        (reconcile tracks files).matched =
          (somes (pass1 tracks files []).map).length ∧
        ((reconcile tracks files).mismatch = true →
          confident tracks files = false) := by
  intro tracks files
  have hiff : confident tracks files = true ↔
      allMapped (reconcile tracks files) = true ∧
        (reconcile tracks files).mismatch = false ∧
        files.length / 2 ≤ (reconcile tracks files).matched := by
    unfold confident
    simp [Bool.and_eq_true, Bool.not_eq_true', decide_eq_true_eq, and_assoc]
  refine ⟨hiff, ?_, ?_⟩
  · exact (pass1_inv tracks files []).2.2.2.2.2.2.2
  · intro h
    rcases hc : confident tracks files with _ | _
    · rfl
    · exfalso
      have h2 := (hiff.mp hc).2.1
      rw [h] at h2
      exact absurd h2 (by simp)

/-- Closed witness for `reconcile_injective_total` at a concrete
two-file, two-track input. -/
theorem reconcile_injective_total_witness :
    (somes (reconcile
        [{ track := 1, length := 100 }, { track := 2, length := 200 }]
        [{ tagTrack := 1, fnTrack := 0, lengthSec := 100 },
          { tagTrack := 2, fnTrack := 0, lengthSec := 205 }]).map).Nodup ∧
      ∀ x ∈ (reconcile
        [{ track := 1, length := 100 }, { track := 2, length := 200 }]
        [{ tagTrack := 1, fnTrack := 0, lengthSec := 100 },
          { tagTrack := 2, fnTrack := 0, lengthSec := 205 }]).map,
        x.isSome = true :=
  ⟨(reconcile_injective_total
      [{ track := 1, length := 100 }, { track := 2, length := 200 }]
      [{ tagTrack := 1, fnTrack := 0, lengthSec := 100 },
        { tagTrack := 2, fnTrack := 0, lengthSec := 205 }]).1,
    (reconcile_injective_total
      [{ track := 1, length := 100 }, { track := 2, length := 200 }]
      [{ tagTrack := 1, fnTrack := 0, lengthSec := 100 },
        { tagTrack := 2, fnTrack := 0, lengthSec := 205 }]).2.2.2 (by decide)⟩

/-- Closed witness for `pass1_first_match_only`: with two unused remote
tracks both numbered 1, an assignment goes to the first of them; a
duration mismatch on the first match raises the flag; no embedded number
means no flag. -/
theorem pass1_first_match_only_witness :
    (IsFirstUnusedMatch
          [{ track := 1, length := 100 }, { track := 1, length := 100 }] [] 1 0 ∨
        IsFirstUnusedMatch
          [{ track := 1, length := 100 }, { track := 1, length := 100 }] [] 0 0) ∧
      (0 < (1 : Nat) ∧ ∃ j, IsFirstUnusedMatch [{ track := 1, length := 100 }] [] 1 j ∧
        durOk ([{ track := 1, length := 100 }].getD j {})
          { tagTrack := 1, fnTrack := 0, lengthSec := 200 } = false) ∧
      (matchFile [{ track := 1, length := 100 }] []
        { tagTrack := 0, fnTrack := 0, lengthSec := 100 }).2 = false :=
  ⟨(pass1_first_match_only
      [{ track := 1, length := 100 }, { track := 1, length := 100 }] []
      { tagTrack := 1, fnTrack := 0, lengthSec := 100 }).1 0 (by decide),
    (pass1_first_match_only [{ track := 1, length := 100 }] []
      { tagTrack := 1, fnTrack := 0, lengthSec := 200 }).2.1 (by decide),
    (pass1_first_match_only [{ track := 1, length := 100 }] []
      { tagTrack := 0, fnTrack := 0, lengthSec := 100 }).2.2 rfl⟩

/-- C1 (counterexample): with one remote track and one file carrying no
track number at all, the file is assigned by the fallback pass only, so
the pass-1 assignment count is 0 — not "at least half the file count"
(0 < 1/2) — yet the source computes `0 >= (int)1 / 2`, i.e. `0 >= 0`,
and declares the mapping confident. -/
theorem confident_half_counterexample :
    confident [{ track := 1, length := 100 }]
        [{ tagTrack := 0, fnTrack := 0, lengthSec := 100 }] = true ∧
      ¬confidentSpec [{ track := 1, length := 100 }]
        [{ tagTrack := 0, fnTrack := 0, lengthSec := 100 }] := by
  decide

/-- Closed witness for `confident_iff_floor_half`: a fully strong-matched
three-file batch is confident; a batch with a recorded duration mismatch
is not. -/
theorem confident_iff_floor_half_witness :
    confident
        [{ track := 1, length := 100 }, { track := 2, length := 200 },
          { track := 3, length := 300 }]
        [{ tagTrack := 1, fnTrack := 0, lengthSec := 101 },
          { tagTrack := 2, fnTrack := 0, lengthSec := 202 },
          { tagTrack := 3, fnTrack := 0, lengthSec := 303 }] = true ∧
      confident [{ track := 1, length := 100 }]
        [{ tagTrack := 1, fnTrack := 0, lengthSec := 300 }] = false :=
  ⟨(confident_iff_floor_half
      [{ track := 1, length := 100 }, { track := 2, length := 200 },
        { track := 3, length := 300 }]
      [{ tagTrack := 1, fnTrack := 0, lengthSec := 101 },
        { tagTrack := 2, fnTrack := 0, lengthSec := 202 },
        { tagTrack := 3, fnTrack := 0, lengthSec := 303 }]).1.mpr
      ⟨by decide, by decide, by decide⟩,
    (confident_iff_floor_half [{ track := 1, length := 100 }]
      [{ tagTrack := 1, fnTrack := 0, lengthSec := 300 }]).2.2 (by decide)⟩

end BeTon
